import Mathlib

/-!
Shallow embedding of the Excel examination core of `BatuLabAiExcel`
(`src/BatuLabAiExcel/excel_files/examine_excel_direct.py`), together with
spec-level models of the pieces the script delegates to external libraries
(openpyxl's column-letter conversion and the MCP server's range read).

Worksheet grids are the in-memory artifact openpyxl exposes after
`load_workbook(..., data_only=True)`: nominal bounds `max_row`/`max_column`
(each at least 1 in openpyxl, but not assumed here unless stated) and a
1-based cell query returning the cached value, `None` for an empty cell.
-/

namespace BatuLab

/-- A loaded cell value: `absent` is Python `None` (an empty cell); text,
number, boolean and datetime are the value kinds the script distinguishes
(`isinstance(cell, datetime)` vs everything else). Numbers are modelled as
integers; no claim depends on float-specific behaviour. -/
inductive CellValue where
  | absent : CellValue
  | text (s : String) : CellValue
  | number (n : Int) : CellValue
  | boolean (b : Bool) : CellValue
  | datetime (y mo d hh mi ss : Nat) : CellValue
deriving DecidableEq, Repr

/-- Zero-pad to two digits, as `strftime` field formatting does. -/
def pad2 (n : Nat) : String :=
  if n < 10 then "0" ++ toString n else toString n

/-- Zero-pad to four digits, as `strftime` `%Y` does. -/
def pad4 (n : Nat) : String :=
  if n < 10 then "000" ++ toString n
  else if n < 100 then "00" ++ toString n
  else if n < 1000 then "0" ++ toString n
  else toString n

/-- `strftime('%Y-%m-%d')` on a datetime value. -/
def fmtDate (y mo d : Nat) : String :=
  pad4 y ++ "-" ++ pad2 mo ++ "-" ++ pad2 d

/-- `strftime('%H:%M:%S')` on a datetime value. -/
def fmtTime (hh mi ss : Nat) : String :=
  pad2 hh ++ ":" ++ pad2 mi ++ ":" ++ pad2 ss

/-- Python `str(cell)` on a loaded cell value: `str(None) = "None"`,
`str(True) = "True"`, `str(datetime(...)) = "YYYY-MM-DD HH:MM:SS"`. -/
def pyStr : CellValue → String
  | .absent => "None"
  | .text s => s
  | .number n => toString n
  | .boolean b => if b then "True" else "False"
  | .datetime y mo d hh mi ss => fmtDate y mo d ++ " " ++ fmtTime hh mi ss

/-- The ASCII whitespace characters Python `str.strip()` removes. -/
def isSpaceChar (c : Char) : Bool :=
  c == ' ' || c == '\t' || c == '\n' || c == '\r' || c == '\x0b' || c == '\x0c'

/-- Drop leading and trailing whitespace from a character list. -/
def stripChars (l : List Char) : List Char :=
  ((l.dropWhile isSpaceChar).reverse.dropWhile isSpaceChar).reverse

/-- Python `s.strip()`. -/
def pyStrip (s : String) : String :=
  String.mk (stripChars s.data)

/-- A worksheet grid as openpyxl exposes it: nominal bounds and a 1-based
cell query (`worksheet.cell(row, column).value`). -/
structure Worksheet where
  title : String
  maxRow : Nat
  maxCol : Nat
  cell : Nat → Nat → CellValue

/-- A loaded workbook: its worksheets in workbook-declared order. -/
structure Workbook where
  worksheets : List Worksheet

/-! ### Column letters (bijective base 26)

`openpyxl.utils.get_column_letter` and its inverse are library code, not in
the repository; they are modelled from the spec here. -/

/-- Is `c` an uppercase column letter `A`..`Z`? -/
def isColLetter (c : Char) : Bool :=
  65 ≤ c.toNat && c.toNat ≤ 90

/-- Value of one column letter: `A` = 1 … `Z` = 26. -/
def letterVal (c : Char) : Nat :=
  c.toNat - 64

/-- The column letter with value `r + 1` (so `colChar 0 = 'A'`). -/
def colChar (r : Nat) : Char :=
  Char.ofNat (65 + r)

/-- Modelled from the spec: bijective base-26 rendering of a positive column
index (`openpyxl.utils.get_column_letter`), fuelled for structural
recursion; `formatColumn` supplies fuel `n`, which always suffices. -/
def formatColAux : Nat → Nat → List Char
  | 0, _ => []
  | _ + 1, 0 => []
  | fuel + 1, n + 1 => formatColAux fuel (n / 26) ++ [colChar (n % 26)]

/-- Modelled from the spec: `formatColumn n` is the column-letter string of
the 1-based column index `n` (`A` = 1, …, `Z` = 26, `AA` = 27, …). -/
def formatColumn (n : Nat) : String :=
  String.mk (formatColAux n n)

/-- Accumulated value of a column-letter string, most significant first. -/
def parseVal (l : List Char) : Nat :=
  l.foldl (fun a c => a * 26 + letterVal c) 0

/-- The error signalled on malformed column text. -/
inductive AddrError where
  | invalidAddress : AddrError
deriving DecidableEq, Repr

/-- Modelled from the spec: `parseColumn` inverts `formatColumn`, failing
with `InvalidAddress` on the empty string or any non-alphabetic character. -/
def parseColumn (s : String) : Except AddrError Nat :=
  if s.data.isEmpty || !(s.data.all isColLetter) then
    .error .invalidAddress
  else
    .ok (parseVal s.data)

/-! ### Used-range inference and worksheet metadata -/

/-- Lines 37-40: the emptiness test of the per-sheet loop — a worksheet is
skipped as empty exactly when its nominal bounds are 1×1 and the single
cell holds `None`. -/
def isEmptyWorksheet (ws : Worksheet) : Bool :=
  ws.maxRow == 1 && ws.maxCol == 1 && ws.cell 1 1 == CellValue.absent

/-- Lines 42 and 117: the used-range string,
`f"A1:{get_column_letter(max_column)}{max_row}"` — always the full nominal
bounds, independent of which cells are populated. -/
def usedRangeString (ws : Worksheet) : String :=
  "A1:" ++ formatColumn ws.maxCol ++ toString ws.maxRow

/-- Lines 37-44: what the per-sheet display loop reports as the used range:
`none` when the emptiness test fires (the loop `continue`s without
reporting), otherwise the full-nominal-bounds string. -/
def reportUsedRange (ws : Worksheet) : Option String :=
  if isEmptyWorksheet ws then none
  else some (usedRangeString ws)

/-- One entry of the `get_workbook_metadata` simulation (lines 115-120). -/
structure WsInfo where
  name : String
  used_range : String
  max_row : Nat
  max_column : Nat
deriving DecidableEq, Repr

/-- Lines 115-120: the metadata entry built for a worksheet — emitted for
every worksheet, with no emptiness check. -/
def wsInfo (ws : Worksheet) : WsInfo :=
  { name := ws.title
    used_range := usedRangeString ws
    max_row := ws.maxRow
    max_column := ws.maxCol }

/-- Lines 114-121: the `worksheets` list of the metadata result, one entry
per worksheet in workbook order. -/
def workbookMetadata (wb : Workbook) : List WsInfo :=
  wb.worksheets.map wsInfo

/-! ### Summary statistics (lines 91-102) -/

/-- Line 91: `total_cells = sum(ws.max_row * ws.max_column for ws in
workbook.worksheets)`. -/
def totalCells (wb : Workbook) : Nat :=
  (wb.worksheets.map (fun ws => ws.maxRow * ws.maxCol)).sum

/-- Line 97: the condition under which a cell increments the non-empty
counter — `cell is not None and str(cell).strip()`. -/
def cellCounted (c : CellValue) : Bool :=
  !(c == CellValue.absent) && !(pyStrip (pyStr c) == "")

/-- Lines 95-98 for one worksheet: `iter_rows(values_only=True)` walks rows
1..max_row and columns 1..max_column of the nominal grid, incrementing the
counter for each counted cell. -/
def wsScan (ws : Worksheet) (acc : Nat) : Nat :=
  (List.range ws.maxRow).foldl (fun a i =>
    (List.range ws.maxCol).foldl (fun b j =>
      if cellCounted (ws.cell (i + 1) (j + 1)) then b + 1 else b) a) acc

/-- Lines 92-98: `non_empty_cells`, accumulated over all worksheets. -/
def nonEmptyCells (wb : Workbook) : Nat :=
  wb.worksheets.foldl (fun a ws => wsScan ws a) 0

/-- Spec-side per-sheet count: over the nominal grid, the number of cells
that are not absent and whose text form is non-blank after trimming. -/
def wsNonEmptyCount (ws : Worksheet) : Nat :=
  ((List.range ws.maxRow).map (fun i =>
    ((List.range ws.maxCol).map (fun j => ws.cell (i + 1) (j + 1))).countP
      cellCounted)).sum

/-- Line 102: the density ratio `non_empty_cells / total_cells`. The
source divides with no guard, so a workbook whose total cell count is zero
raises `ZeroDivisionError` — modelled as `none`. (The script prints this
ratio scaled by 100 as a percentage.) -/
def density (wb : Workbook) : Option ℚ :=
  if totalCells wb = 0 then none
  else some ((nonEmptyCells wb : ℚ) / (totalCells wb : ℚ))

/-! ### Value serialization vs display -/

/-- A JSON-serializable cell of the `read_data_from_excel` result. -/
inductive JsonCell where
  | null : JsonCell
  | str (s : String) : JsonCell
  | num (n : Int) : JsonCell
  | bool (b : Bool) : JsonCell
deriving DecidableEq, Repr

/-- Lines 139-145: serialization of one cell for the read result —
datetimes become date-only `"YYYY-MM-DD"` strings, `None` becomes JSON
`null`, every other value is passed through as its literal. -/
def serializeCell : CellValue → JsonCell
  | .datetime y mo d _ _ _ => .str (fmtDate y mo d)
  | .absent => .null
  | .text s => .str s
  | .number n => .num n
  | .boolean b => .bool b

/-- Lines 53-59: text-display formatting of one cell — datetimes are
rendered with time of day (`"YYYY-MM-DD HH:MM:SS"`), `None` becomes the
empty string, every other value is `str(cell)`. -/
def displayCell : CellValue → String
  | .datetime y mo d hh mi ss => fmtDate y mo d ++ " " ++ fmtTime hh mi ss
  | .absent => ""
  | c => pyStr c

/-! ### Range extraction -/

/-- A 1-based cell coordinate. -/
structure CellAddress where
  row : Nat
  column : Nat
deriving DecidableEq, Repr

/-- A rectangular range between two corners. -/
structure CellRange where
  topLeft : CellAddress
  bottomRight : CellAddress
deriving DecidableEq, Repr

/-- Modelled from the spec: `readRange` over an arbitrary `CellRange` is
implemented by the external MCP server, not by the repository; the spec's
iteration rule (rows `topLeft.row..bottomRight.row`, columns
`topLeft.column..bottomRight.column`, row-major, serialized per the read
contract) coincides with the extraction loop of lines 135-146, which
instantiates it at `topLeft = (1,1)`. -/
def readRange (ws : Worksheet) (r : CellRange) : List (List JsonCell) :=
  (List.range (r.bottomRight.row - r.topLeft.row + 1)).map (fun i =>
    (List.range (r.bottomRight.column - r.topLeft.column + 1)).map (fun j =>
      serializeCell (ws.cell (r.topLeft.row + i) (r.topLeft.column + j))))

/-! ### Workbook-handle lifecycle (lines 19-165)

The script wraps the whole examination in one `try`: the workbook is
opened at line 21 and `workbook.close()` is reached only at line 158,
after every processing step has succeeded; the `except` handlers at lines
160-165 print the error and fall through without closing. The control
flow is embedded as a function of which step fails. -/

/-- Outcome of `openpyxl.load_workbook` at line 21. -/
inductive LoadOutcome where
  | ok : LoadOutcome
  | fileNotFound : LoadOutcome
  | loadError : LoadOutcome
deriving DecidableEq, Repr

/-- What is known about the handle when `examine_excel_file` returns. -/
structure HandleTrace where
  openedHandle : Bool
  closedBeforeReturn : Bool
deriving DecidableEq, Repr

/-- Lines 19-165 as a control-flow skeleton: if loading fails the handle
never opens; if any step of the body (lines 23-156) raises, control jumps
to the `except` handlers past the `workbook.close()` of line 158, so the
handle stays open; only the fully successful path closes it. -/
def examineHandleFlow (load : LoadOutcome) (bodyRaises : Bool) : HandleTrace :=
  match load with
  | .ok =>
    if bodyRaises then { openedHandle := true, closedBeforeReturn := false }
    else { openedHandle := true, closedBeforeReturn := true }
  | .fileNotFound => { openedHandle := false, closedBeforeReturn := false }
  | .loadError => { openedHandle := false, closedBeforeReturn := false }

/-! ### Concrete example grids -/

/-- Grid with nominal bounds 5×3 in which only cell (1,1) is populated. -/
def sparse53 : Worksheet :=
  { title := "Sample Data"
    maxRow := 5
    maxCol := 3
    cell := fun i j => if i = 1 ∧ j = 1 then CellValue.text "Name" else CellValue.absent }

/-- An empty worksheet: nominal bounds 1×1, the single cell absent. -/
def empty11 : Worksheet :=
  { title := "Empty"
    maxRow := 1
    maxCol := 1
    cell := fun _ _ => CellValue.absent }

/-- Grid with nominal bounds 2×2, three populated cells, one absent. -/
def dense22 : Worksheet :=
  { title := "Dense"
    maxRow := 2
    maxCol := 2
    cell := fun i j =>
      if i = 1 ∧ j = 1 then CellValue.text "Name"
      else if i = 1 ∧ j = 2 then CellValue.number 42
      else if i = 2 ∧ j = 1 then CellValue.boolean true
      else CellValue.absent }

/-- Workbook holding only the 2×2 example grid. -/
def denseWb : Workbook :=
  { worksheets := [dense22] }

/-- Two-sheet workbook: the sparse grid followed by the empty sheet. -/
def exWb : Workbook :=
  { worksheets := [sparse53, empty11] }

/-- A requested range far larger than the sparse grid's real data. -/
def wideRange : CellRange :=
  { topLeft := { row := 1, column := 1 }
    bottomRight := { row := 100, column := 4 } }

/-! ### Column-letter lemmas -/

theorem colChar_toNat {r : Nat} (h : r < 26) : (colChar r).toNat = 65 + r := by
  interval_cases r <;> decide

theorem letterVal_colChar {r : Nat} (h : r < 26) : letterVal (colChar r) = r + 1 := by
  simp only [letterVal, colChar_toNat h]
  omega

theorem isColLetter_colChar {r : Nat} (h : r < 26) : isColLetter (colChar r) = true := by
  simp only [isColLetter, colChar_toNat h, Bool.and_eq_true, decide_eq_true_eq]
  omega

theorem colChar_letterVal {c : Char} (h : isColLetter c = true) :
    colChar (letterVal c - 1) = c := by
  have h1 : 65 ≤ c.toNat ∧ c.toNat ≤ 90 := by
    simpa [isColLetter] using h
  have h2 : 65 + (letterVal c - 1) = c.toNat := by
    simp only [letterVal]; omega
  rw [colChar, h2, Char.ofNat_toNat]

theorem parseVal_append (a : List Char) (c : Char) :
    parseVal (a ++ [c]) = parseVal a * 26 + letterVal c := by
  simp [parseVal, List.foldl_append]

theorem formatColAux_fuel :
    ∀ f1 f2 n : Nat, n ≤ f1 → n ≤ f2 → formatColAux f1 n = formatColAux f2 n := by
  intro f1
  induction f1 with
  | zero =>
    intro f2 n h1 _
    interval_cases n
    cases f2 <;> rfl
  | succ g ih =>
    intro f2 n h1 h2
    match n, f2 with
    | 0, 0 => rfl
    | 0, _ + 1 => rfl
    | m + 1, g2 + 1 =>
      simp only [formatColAux]
      rw [ih g2 (m / 26) (by omega) (by omega)]

theorem parseVal_formatColAux :
    ∀ f n : Nat, n ≤ f → parseVal (formatColAux f n) = n := by
  intro f
  induction f with
  | zero =>
    intro n h
    interval_cases n
    rfl
  | succ g ih =>
    intro n h
    match n with
    | 0 => rfl
    | m + 1 =>
      simp only [formatColAux]
      rw [parseVal_append, ih (m / 26) (by omega), letterVal_colChar (by omega)]
      omega

theorem formatColAux_valid :
    ∀ f n : Nat, ∀ c ∈ formatColAux f n, isColLetter c = true := by
  intro f
  induction f with
  | zero =>
    intro n c hc
    simp [formatColAux] at hc
  | succ g ih =>
    intro n c hc
    match n with
    | 0 => simp [formatColAux] at hc
    | m + 1 =>
      simp only [formatColAux, List.mem_append, List.mem_singleton] at hc
      rcases hc with hc | hc
      · exact ih (m / 26) c hc
      · rw [hc]
        exact isColLetter_colChar (by omega)

theorem formatColAux_ne_nil :
    ∀ f n : Nat, 1 ≤ n → n ≤ f → formatColAux f n ≠ [] := by
  intro f n h1 h2
  cases f with
  | zero => omega
  | succ g =>
    cases n with
    | zero => omega
    | succ m => simp [formatColAux]

theorem formatCol_step (m v : Nat) (h1 : 1 ≤ v) (h2 : v ≤ 26) :
    formatColAux (m * 26 + v) (m * 26 + v) = formatColAux m m ++ [colChar (v - 1)] := by
  obtain ⟨k, hk⟩ : ∃ k, m * 26 + v = k + 1 := ⟨m * 26 + v - 1, by omega⟩
  have hkdiv : k / 26 = m := by omega
  have hkmod : k % 26 = v - 1 := by omega
  rw [hk]
  simp only [formatColAux, hkdiv, hkmod]
  rw [formatColAux_fuel k m m (by omega) (by omega)]

theorem format_parseVal :
    ∀ l : List Char, (∀ c ∈ l, isColLetter c = true) →
      formatColAux (parseVal l) (parseVal l) = l := by
  intro l
  induction l using List.reverseRecOn with
  | nil => intro _; rfl
  | append_singleton a c ih =>
    intro hv
    have hvc : isColLetter c = true := hv c (by simp)
    have hva : ∀ x ∈ a, isColLetter x = true := fun x hx => hv x (by simp [hx])
    have hc : 65 ≤ c.toNat ∧ c.toNat ≤ 90 := by
      simpa [isColLetter] using hvc
    have hlv1 : 1 ≤ letterVal c := by simp only [letterVal]; omega
    have hlv2 : letterVal c ≤ 26 := by simp only [letterVal]; omega
    rw [parseVal_append, formatCol_step (parseVal a) (letterVal c) hlv1 hlv2,
      ih hva, colChar_letterVal hvc]

/-! ### Fold and count lemmas for the summary scan -/

theorem foldl_count {α : Type} (p : α → Bool) :
    ∀ (l : List α) (a : Nat),
      l.foldl (fun acc x => if p x then acc + 1 else acc) a = a + l.countP p := by
  intro l
  induction l with
  | nil => intro a; simp
  | cons x xs ih =>
    intro a
    simp only [List.foldl_cons, List.countP_cons, ih]
    by_cases h : p x = true
    · simp [h]
      omega
    · simp [h]

theorem wsScan_eq (ws : Worksheet) (acc : Nat) :
    wsScan ws acc = acc + wsNonEmptyCount ws := by
  unfold wsScan wsNonEmptyCount
  generalize List.range ws.maxRow = rows
  induction rows generalizing acc with
  | nil => simp
  | cons i rest ih =>
    simp only [List.foldl_cons, List.map_cons, List.sum_cons]
    rw [ih, foldl_count, List.countP_map]
    have hcomp : cellCounted ∘ (fun j => ws.cell (i + 1) (j + 1)) =
        fun j => cellCounted (ws.cell (i + 1) (j + 1)) := rfl
    rw [hcomp]
    omega

theorem nonEmptyCells_eq (wb : Workbook) :
    nonEmptyCells wb = (wb.worksheets.map wsNonEmptyCount).sum := by
  unfold nonEmptyCells
  generalize wb.worksheets = l
  have key : ∀ (l : List Worksheet) (acc : Nat),
      l.foldl (fun a ws => wsScan ws a) acc = acc + (l.map wsNonEmptyCount).sum := by
    intro l
    induction l with
    | nil => intro acc; simp
    | cons ws rest ih =>
      intro acc
      simp only [List.foldl_cons, List.map_cons, List.sum_cons]
      rw [ih, wsScan_eq]
      omega
  simpa using key l 0

theorem wsNonEmptyCount_le (ws : Worksheet) :
    wsNonEmptyCount ws ≤ ws.maxRow * ws.maxCol := by
  unfold wsNonEmptyCount
  have hb : ∀ x ∈ (List.range ws.maxRow).map (fun i =>
      ((List.range ws.maxCol).map (fun j => ws.cell (i + 1) (j + 1))).countP
        cellCounted), x ≤ ws.maxCol := by
    intro x hx
    simp only [List.mem_map] at hx
    obtain ⟨i, _, hix⟩ := hx
    rw [← hix]
    have h1 := List.countP_le_length (l :=
      (List.range ws.maxCol).map (fun j => ws.cell (i + 1) (j + 1))) cellCounted
    simpa using h1
  have h2 := List.sum_le_card_nsmul _ ws.maxCol hb
  simpa using h2

theorem nonEmptyCells_le_totalCells (wb : Workbook) :
    nonEmptyCells wb ≤ totalCells wb := by
  rw [nonEmptyCells_eq]
  unfold totalCells
  exact List.sum_le_sum (fun ws _ => wsNonEmptyCount_le ws)

theorem isEmptyWorksheet_iff (ws : Worksheet) :
    isEmptyWorksheet ws = true ↔
      (ws.maxRow = 1 ∧ ws.maxCol = 1 ∧ ws.cell 1 1 = CellValue.absent) := by
  simp [isEmptyWorksheet, and_assoc]

/-! ### Claim theorems -/

/-- C1: for every worksheet whose grid is non-empty, the reported used
range (both the per-sheet display and the metadata entry) is the full
nominal bounds `A1:<columnLetter(maxColumn)><maxRow>`, and it does not
depend on which cells are populated — never a tighter bounding box. -/
theorem usedRange_full_nominal_bounds (ws : Worksheet)
    (h : isEmptyWorksheet ws = false) :
    reportUsedRange ws =
      some ("A1:" ++ formatColumn ws.maxCol ++ toString ws.maxRow) ∧
    (wsInfo ws).used_range = "A1:" ++ formatColumn ws.maxCol ++ toString ws.maxRow ∧
    (∀ g : Nat → Nat → CellValue,
      (wsInfo { ws with cell := g }).used_range = (wsInfo ws).used_range) := by
  refine ⟨?_, rfl, fun g => rfl⟩
  simp [reportUsedRange, h, usedRangeString]

/-- Witness for C1: the 5×3 grid populated only at (1,1) reports its full
nominal bounds `A1:C5`, not the tight box `A1:A1`. -/
theorem usedRange_full_nominal_bounds_witness :
    isEmptyWorksheet sparse53 = false ∧
    reportUsedRange sparse53 = some "A1:C5" := by
  have h := (usedRange_full_nominal_bounds sparse53 (by decide)).1
  exact ⟨by decide, h.trans (by decide)⟩

/-- C2: used-range inference signals the empty-worksheet state exactly when
the nominal bounds are 1×1 and the single cell is absent; any grid with a
larger nominal extent is reported as used in full. -/
theorem emptyWorksheet_iff_degenerate (ws : Worksheet) :
    (reportUsedRange ws = none ↔
      (ws.maxRow = 1 ∧ ws.maxCol = 1 ∧ ws.cell 1 1 = CellValue.absent)) ∧
    (¬(ws.maxRow = 1 ∧ ws.maxCol = 1) →
      reportUsedRange ws = some (usedRangeString ws)) := by
  constructor
  · rw [← isEmptyWorksheet_iff]
    unfold reportUsedRange
    cases h : isEmptyWorksheet ws <;> simp [h]
  · intro h
    unfold reportUsedRange
    cases hh : isEmptyWorksheet ws
    · simp
    · rw [isEmptyWorksheet_iff] at hh
      exact absurd ⟨hh.1, hh.2.1⟩ h

/-- Witness for C2: the 1×1 absent grid signals empty; the 5×3 grid with a
larger nominal extent is reported as used in full. -/
theorem emptyWorksheet_iff_degenerate_witness :
    reportUsedRange empty11 = none ∧
    reportUsedRange sparse53 = some (usedRangeString sparse53) := by
  refine ⟨(emptyWorksheet_iff_degenerate empty11).1.mpr ⟨rfl, rfl, rfl⟩, ?_⟩
  exact (emptyWorksheet_iff_degenerate sparse53).2 (by decide)

/-- C3: `totalCells` is the sum of `maxRow × maxColumn` over the
worksheets' nominal bounds, and the non-empty-cell counter accumulated by
the scan equals, per worksheet, the count over the nominal grid of cells
that are not absent and whose Python text form is non-blank after
stripping whitespace — counted by exactly that predicate. -/
theorem summary_stats_characterization (wb : Workbook) :
    totalCells wb = (wb.worksheets.map (fun ws => ws.maxRow * ws.maxCol)).sum ∧
    nonEmptyCells wb = (wb.worksheets.map wsNonEmptyCount).sum ∧
    (∀ c : CellValue, cellCounted c = true ↔
      (c ≠ CellValue.absent ∧ pyStrip (pyStr c) ≠ "")) := by
  refine ⟨rfl, nonEmptyCells_eq wb, fun c => ?_⟩
  simp [cellCounted]

/-- Witness for C3: on the 2×2 grid with three populated cells the stats
come out as `nonEmptyCells = 3`, `totalCells = 4`, and a cell holding a
whitespace-only string does not count. -/
theorem summary_stats_characterization_witness :
    nonEmptyCells denseWb = 3 ∧ totalCells denseWb = 4 ∧
    ¬(cellCounted (CellValue.text "   ") = true) := by
  have h := summary_stats_characterization denseWb
  refine ⟨h.2.1.trans (by decide), h.1.trans (by decide), ?_⟩
  rw [h.2.2 (CellValue.text "   ")]
  decide

/-- C4 as stated is false on the code: line 102 divides by `total_cells`
with no guard, so a workbook whose total cell count is zero makes the
density computation fail (`ZeroDivisionError`, modelled as `none`) instead
of reporting 0. -/
theorem density_zero_total_counterexample :
    totalCells { worksheets := [] } = 0 ∧
    density { worksheets := [] } = none ∧
    density { worksheets := [] } ≠ some 0 := by
  refine ⟨rfl, rfl, ?_⟩
  intro h
  have hnone : density { worksheets := [] } = none := rfl
  rw [hnone] at h
  exact Option.noConfusion h

/-- C4 amended: the density statistic equals `nonEmptyCells / totalCells`
whenever `totalCells ≠ 0`; when `totalCells = 0` the computation fails
(unguarded division by zero) rather than reporting 0. -/
theorem density_eq_ratio (wb : Workbook) :
    (totalCells wb ≠ 0 →
      density wb = some ((nonEmptyCells wb : ℚ) / (totalCells wb : ℚ))) ∧
    (totalCells wb = 0 → density wb = none) := by
  constructor
  · intro h
    simp [density, h]
  · intro h
    simp [density, h]

/-- Witness for C4's amended claim at the 2×2 example workbook. -/
theorem density_eq_ratio_witness :
    density denseWb =
      some ((nonEmptyCells denseWb : ℚ) / (totalCells denseWb : ℚ)) :=
  (density_eq_ratio denseWb).1 (by decide)

/-- C5: the metadata worksheet list has one entry per worksheet in workbook
order, and an empty worksheet is not omitted: its entry carries used range
`A1:A1` with `max_row = max_column = 1`. -/
theorem workbookMetadata_complete (wb : Workbook) :
    (workbookMetadata wb).length = wb.worksheets.length ∧
    (∀ i : Nat, (workbookMetadata wb)[i]? = (wb.worksheets[i]?).map wsInfo) ∧
    (∀ ws : Worksheet, isEmptyWorksheet ws = true →
      wsInfo ws =
        { name := ws.title, used_range := "A1:A1", max_row := 1, max_column := 1 }) := by
  refine ⟨by simp [workbookMetadata], fun i => by simp [workbookMetadata], fun ws h => ?_⟩
  rw [isEmptyWorksheet_iff] at h
  obtain ⟨h1, h2, _⟩ := h
  have hs : "A1:" ++ formatColumn 1 ++ toString 1 = "A1:A1" := by decide
  simp [wsInfo, usedRangeString, h1, h2, hs]

/-- Witness for C5: the two-sheet workbook keeps its empty sheet in the
list, with the degenerate `A1:A1` entry. -/
theorem workbookMetadata_complete_witness :
    (workbookMetadata exWb).length = 2 ∧
    wsInfo empty11 =
      { name := "Empty", used_range := "A1:A1", max_row := 1, max_column := 1 } := by
  have h := workbookMetadata_complete exWb
  exact ⟨h.1.trans rfl, h.2.2 empty11 (by decide)⟩

/-- C6: in the serialized read result an absent cell becomes `null` and a
datetime becomes the date-only `YYYY-MM-DD` string, while the text-display
path renders a datetime as `YYYY-MM-DD HH:MM:SS`; the two forms differ,
so the date-only form appears exactly in the serialized contract and the
time-of-day form only when displaying. -/
theorem serialize_vs_display (y mo d hh mi ss : Nat) :
    serializeCell CellValue.absent = JsonCell.null ∧
    serializeCell (CellValue.datetime y mo d hh mi ss) =
      JsonCell.str (fmtDate y mo d) ∧
    displayCell (CellValue.datetime y mo d hh mi ss) =
      fmtDate y mo d ++ " " ++ fmtTime hh mi ss ∧
    displayCell CellValue.absent = "" ∧
    fmtDate y mo d ≠ fmtDate y mo d ++ " " ++ fmtTime hh mi ss := by
  refine ⟨rfl, rfl, rfl, rfl, ?_⟩
  intro h
  have hl := congrArg String.length h
  simp only [String.length_append] at hl
  have hone : (" " : String).length = 1 := rfl
  rw [hone] at hl
  omega

/-- Witness for C6 at the timestamp 2024-01-15 10:30:00. -/
theorem serialize_vs_display_witness :
    serializeCell (CellValue.datetime 2024 1 15 10 30 0) =
      JsonCell.str "2024-01-15" ∧
    displayCell (CellValue.datetime 2024 1 15 10 30 0) =
      "2024-01-15 10:30:00" := by
  have h := serialize_vs_display 2024 1 15 10 30 0
  exact ⟨h.2.1.trans (by decide), h.2.2.1.trans (by decide)⟩

/-- C7 as stated is false on the code: `workbook.close()` (line 158) sits
at the end of the `try` body, so when any step after loading raises, the
`except` handlers (lines 160-165) return with the handle still open. -/
theorem handle_leak_counterexample :
    (examineHandleFlow LoadOutcome.ok true).openedHandle = true ∧
    (examineHandleFlow LoadOutcome.ok true).closedBeforeReturn = false := by
  decide

/-- C7 amended: the workbook handle is closed before return exactly on the
fully successful path — loading succeeded and no later step raised; on
every error path after a successful load the handle stays open. -/
theorem handle_closed_iff_success (load : LoadOutcome) (bodyRaises : Bool) :
    (examineHandleFlow load bodyRaises).closedBeforeReturn =
      ((load == LoadOutcome.ok) && !bodyRaises) ∧
    (examineHandleFlow load bodyRaises).openedHandle = (load == LoadOutcome.ok) := by
  cases load <;> cases bodyRaises <;> exact ⟨rfl, rfl⟩

/-- C8: range extraction covers the full requested span — the result has
exactly one row per requested row index and each row one entry per
requested column index, with the cell at offset (i, j) drawn from grid
position `(topLeft.row + i, topLeft.column + j)`; no capping occurs. -/
theorem readRange_no_capping (ws : Worksheet) (r : CellRange)
    (_hrow : r.topLeft.row ≤ r.bottomRight.row)
    (_hcol : r.topLeft.column ≤ r.bottomRight.column)
    (i j : Nat)
    (hi : i ≤ r.bottomRight.row - r.topLeft.row)
    (hj : j ≤ r.bottomRight.column - r.topLeft.column) :
    (readRange ws r).length = r.bottomRight.row - r.topLeft.row + 1 ∧
    (∀ row ∈ readRange ws r,
      row.length = r.bottomRight.column - r.topLeft.column + 1) ∧
    ((readRange ws r)[i]?.bind fun row => row[j]?) =
      some (serializeCell (ws.cell (r.topLeft.row + i) (r.topLeft.column + j))) := by
  refine ⟨by simp [readRange], ?_, ?_⟩
  · intro row hrowmem
    simp only [readRange, List.mem_map] at hrowmem
    obtain ⟨a, _, ha⟩ := hrowmem
    rw [← ha]
    simp
  · simp only [readRange, List.getElem?_map]
    rw [List.getElem?_range (by omega)]
    simp only [Option.map_some', Option.some_bind, List.getElem?_map]
    rw [List.getElem?_range (by omega)]
    rfl

/-- Witness for C8: requesting 100 rows × 4 columns of the 5×3 sparse grid
returns all 100 rows, and the far corner is an absent cell serialized as
`null` — nothing was truncated to the grid's real data. -/
theorem readRange_no_capping_witness :
    (readRange sparse53 wideRange).length = 100 ∧
    ((readRange sparse53 wideRange)[99]?.bind fun row => row[3]?) =
      some JsonCell.null := by
  have h := readRange_no_capping sparse53 wideRange (by decide) (by decide)
    99 3 (by decide) (by decide)
  exact ⟨h.1.trans rfl, h.2.2.trans (by decide)⟩

/-- C9: column letters are a bijective base-26 encoding — `parseColumn`
inverts `formatColumn` on every positive index, `formatColumn` inverts
`parseColumn` on every valid column-letter string, and `parseColumn` fails
with `InvalidAddress` on the empty string and on any string containing a
non-alphabetic character. -/
theorem column_letter_roundTrip :
    (∀ n : Nat, 1 ≤ n → parseColumn (formatColumn n) = Except.ok n) ∧
    (∀ s : String, s.data ≠ [] → (∀ c ∈ s.data, isColLetter c = true) →
      parseColumn s = Except.ok (parseVal s.data) ∧
      formatColumn (parseVal s.data) = s) ∧
    parseColumn "" = Except.error AddrError.invalidAddress ∧
    (∀ s : String, (∃ c ∈ s.data, isColLetter c = false) →
      parseColumn s = Except.error AddrError.invalidAddress) := by
  refine ⟨?_, ?_, rfl, ?_⟩
  · intro n hn
    have hne : formatColAux n n ≠ [] := formatColAux_ne_nil n n hn (le_refl n)
    have hie : (formatColAux n n).isEmpty = false := by
      cases hl : formatColAux n n with
      | nil => exact absurd hl hne
      | cons a as => rfl
    have hall : (formatColAux n n).all isColLetter = true := by
      rw [List.all_eq_true]
      intro c hc
      exact formatColAux_valid n n c hc
    unfold parseColumn formatColumn
    rw [show (String.mk (formatColAux n n)).data = formatColAux n n from rfl,
      hie, hall]
    simp [parseVal_formatColAux n n (le_refl n)]
  · intro s hne hall
    have hie : s.data.isEmpty = false := by
      cases hl : s.data with
      | nil => exact absurd hl hne
      | cons a as => rfl
    have hall2 : s.data.all isColLetter = true := List.all_eq_true.mpr hall
    constructor
    · unfold parseColumn
      rw [hie, hall2]
      rfl
    · unfold formatColumn
      apply String.ext
      rw [show (String.mk (formatColAux (parseVal s.data) (parseVal s.data))).data =
        formatColAux (parseVal s.data) (parseVal s.data) from rfl]
      exact format_parseVal s.data hall
  · intro s hbad
    obtain ⟨c, hc, hcf⟩ := hbad
    unfold parseColumn
    cases hall : s.data.all isColLetter with
    | false => simp [hall]
    | true =>
      rw [List.all_eq_true] at hall
      have := hall c hc
      rw [hcf] at this
      exact absurd this (by simp)

/-- Witness for C9 at column 28 = `AB`, plus a lowercase rejection. -/
theorem column_letter_roundTrip_witness :
    parseColumn (formatColumn 28) = Except.ok 28 ∧
    formatColumn (parseVal "AB".data) = "AB" ∧
    parseColumn "a1" = Except.error AddrError.invalidAddress := by
  have h := column_letter_roundTrip
  refine ⟨h.1 28 (by decide), (h.2.1 "AB" (by decide) (by decide)).2, ?_⟩
  exact h.2.2.2 "a1" ⟨'a', by decide, by decide⟩

/-- C10: the non-empty-cell scan only visits cells inside each worksheet's
nominal bounds, so `nonEmptyCells ≤ totalCells`; whenever `totalCells` is
positive the density ratio lies between 0 and 1 inclusive. -/
theorem density_between_zero_and_one (wb : Workbook) :
    nonEmptyCells wb ≤ totalCells wb ∧
    (0 < totalCells wb →
      ∃ q : ℚ, density wb = some q ∧ 0 ≤ q ∧ q ≤ 1) := by
  refine ⟨nonEmptyCells_le_totalCells wb, fun h => ?_⟩
  refine ⟨(nonEmptyCells wb : ℚ) / (totalCells wb : ℚ), ?_, ?_, ?_⟩
  · simp [density, Nat.pos_iff_ne_zero.mp h]
  · positivity
  · rw [div_le_one (by exact_mod_cast h)]
    exact_mod_cast nonEmptyCells_le_totalCells wb

/-- Witness for C10 at the 2×2 example workbook. -/
theorem density_between_zero_and_one_witness :
    nonEmptyCells denseWb ≤ totalCells denseWb ∧
    ∃ q : ℚ, density denseWb = some q ∧ 0 ≤ q ∧ q ≤ 1 :=
  ⟨(density_between_zero_and_one denseWb).1,
    (density_between_zero_and_one denseWb).2 (by decide)⟩

end BatuLab
